import Mathlib

/-!
Verification development for the Instagram feed-scan & extraction engine
(`src/lib/date_utils.py`, `src/lib/post_extractor.py`,
`src/config/page_selectors.py`).

The Python code is shallowly embedded: pure string/date logic is translated
function by function; browser-driven code (Playwright calls, in-page
JavaScript) is modelled by passing the page's observable answers (element
presence, attribute values, bounding rectangles, raised exceptions) in as
explicit environment data, and translating the host-side control flow
faithfully over that data.  Machine instants are integers (seconds); Python's
float division `total_seconds()/3600 <= threshold` is modelled exactly, by the
equivalent integer comparison.
-/

namespace InstaDL

/-! ## String primitives (Python `in`, `endswith`, `lower`, `strip`, `split`) -/

/-- `pat` occurs at the head of `s` (used to build the other scanners). -/
def startsWith : List Char → List Char → Bool
  | _, [] => true
  | [], _ :: _ => false
  | c :: cs, p :: ps => c = p && startsWith cs ps

/-- Python's substring test `pat in s` on character lists. -/
def containsSub (pat : List Char) : List Char → Bool
  | [] => startsWith [] pat
  | c :: rest => startsWith (c :: rest) pat || containsSub pat rest

/-- Python's `pat in s` on strings. -/
def strContains (s pat : String) : Bool := containsSub pat.data s.data

/-- Python's `s.endswith(suffixText)`. -/
def endswith (s suffixText : String) : Bool :=
  startsWith s.data.reverse suffixText.data.reverse

/-- Python's `s.lower()` (character-wise; the vocabularies involved are ASCII
and CJK, on which `Char.toLower` agrees with `str.lower`). -/
def pyLower (s : String) : String := ⟨s.data.map Char.toLower⟩

/-- Python's `s.strip()` (strip whitespace from both ends). -/
def stripChars (l : List Char) : List Char :=
  ((l.dropWhile Char.isWhitespace).reverse.dropWhile Char.isWhitespace).reverse

/-- Everything after the first occurrence of `sep` in `s`
(`[]` when `sep` does not occur; the call sites guard on occurrence). -/
def dropThroughFirst (sep : List Char) : List Char → List Char
  | [] => []
  | c :: rest =>
    if startsWith (c :: rest) sep then (c :: rest).drop sep.length
    else dropThroughFirst sep rest

/-! ## Timestamp-indicator configuration

From `TIMESTAMP_INDICATORS` in `src/config/page_selectors.py` (identical to
the fallback copies in `date_utils.py` / `post_extractor.py`). -/

def recentIndicators : List String :=
  ["小时", "hour", "hr",
   "分钟", "minute", "min",
   "秒", "second", "sec",
   "刚刚", "just now",
   "今天", "today"]

def oldIndicators : List String :=
  ["天", "day", "days",
   "周", "week", "weeks", "wk",
   "月", "month", "months",
   "年", "year", "years", "yr"]

/-- `TIMESTAMP_INDICATORS["special_cases"]["yesterday"]`. -/
def yesterdaySpecial : Int := 48

/-! ## `is_within_hours` (src/lib/date_utils.py, lines 125-164)

`now` is the value of `datetime.datetime.now()` read at line 162, made an
explicit argument.  A Python-falsy `timestamp_text` (absent, or the empty
string) skips the text logic, as in the source.  The numeric fallback
`(now - timestamp).total_seconds() / 3600 <= hours_threshold` is float
arithmetic in the source; with instants as integer seconds it is modelled
exactly by `now - timestamp ≤ 3600 * hours_threshold`. -/

def is_within_hours (now timestamp hours_threshold : Int)
    (timestamp_text : Option String) : Bool :=
  match timestamp_text with
  | some t =>
    if t ≠ "" then
      if recentIndicators.any (fun ind => strContains (pyLower t) ind) then true
      else if strContains t "昨天" || strContains t "yesterday" then
        decide (yesterdaySpecial ≤ hours_threshold)
      else if oldIndicators.any (fun ind => strContains (pyLower t) ind) then false
      else decide (now - timestamp ≤ 3600 * hours_threshold)
    else decide (now - timestamp ≤ 3600 * hours_threshold)
  | none => decide (now - timestamp ≤ 3600 * hours_threshold)

example : is_within_hours 0 0 24 (some "5 hours") = true := by decide
example : is_within_hours 0 0 47 (some "yesterday") = false := by decide
example : is_within_hours 0 0 48 (some "yesterday") = true := by decide
example : is_within_hours 0 0 1000 (some "3 days") = false := by decide
example : is_within_hours 0 0 0 (some "today") = true := by decide
example : is_within_hours 7200 0 1 (some "") = false := by decide
example : is_within_hours 3600 0 1 none = true := by decide

/-- A display text containing a configured "recent" token is non-empty. -/
lemma ne_empty_of_recentAny {t : String}
    (h : recentIndicators.any (fun ind => strContains (pyLower t) ind) = true) :
    t ≠ "" := by
  rintro rfl; exact absurd h (by decide)

/-- A display text containing a configured "old" token is non-empty. -/
lemma ne_empty_of_oldAny {t : String}
    (h : oldIndicators.any (fun ind => strContains (pyLower t) ind) = true) :
    t ≠ "" := by
  rintro rfl; exact absurd h (by decide)

/-- The text-first rule of `is_within_hours`: any "recent" token in the
lowercased display text makes the verdict `true`, whatever the instant and
threshold. -/
lemma within_hours_of_recentAny (now ts thr : Int) {t : String}
    (h : recentIndicators.any (fun ind => strContains (pyLower t) ind) = true) :
    is_within_hours now ts thr (some t) = true := by
  simp [is_within_hours, ne_empty_of_recentAny h, h]

/-- The "old"-token rule of `is_within_hours`: with no recent token and no
"yesterday" naming, an old token forces the verdict `false`, whatever the
instant and threshold. -/
lemma within_hours_of_oldAny (now ts thr : Int) {t : String}
    (hrec : recentIndicators.any (fun ind => strContains (pyLower t) ind) = false)
    (hyest : (strContains t "昨天" || strContains t "yesterday") = false)
    (hold : oldIndicators.any (fun ind => strContains (pyLower t) ind) = true) :
    is_within_hours now ts thr (some t) = false := by
  simp [is_within_hours, ne_empty_of_oldAny hold, hrec, hyest, hold]

/-- C4: for every instant, `is_within_hours` on the display texts
"yesterday" / "昨天" returns true iff the hours threshold is at least 48,
and in particular returns false at threshold 47. -/
theorem c4_yesterday_threshold (now ts thr : Int) :
    (is_within_hours now ts thr (some "yesterday") = true ↔ 48 ≤ thr)
    ∧ (is_within_hours now ts thr (some "昨天") = true ↔ 48 ≤ thr)
    ∧ is_within_hours now ts 47 (some "yesterday") = false := by
  have key : ∀ th : Int, is_within_hours now ts th (some "yesterday")
      = decide ((48 : Int) ≤ th) := by
    intro th
    have h1 : recentIndicators.any
        (fun ind => strContains (pyLower "yesterday") ind) = false := by decide
    have h2 : (strContains "yesterday" "昨天" || strContains "yesterday" "yesterday")
        = true := by decide
    simp [is_within_hours, h1, h2, yesterdaySpecial]
  have key2 : ∀ th : Int, is_within_hours now ts th (some "昨天")
      = decide ((48 : Int) ≤ th) := by
    intro th
    have h1 : recentIndicators.any
        (fun ind => strContains (pyLower "昨天") ind) = false := by decide
    have h2 : (strContains "昨天" "昨天" || strContains "昨天" "yesterday")
        = true := by decide
    simp [is_within_hours, h1, h2, yesterdaySpecial]
  refine ⟨?_, ?_, ?_⟩
  · rw [key thr]; exact decide_eq_true_iff
  · rw [key2 thr]; exact decide_eq_true_iff
  · rw [key 47]; decide

/-- C6 (counterexample): the display text "today" contains the "old"
vocabulary token "day" under the code's substring test and does not name
"yesterday", yet `is_within_hours` returns true (the "recent" check fires
first), contradicting the claim that such a text always yields false. -/
theorem c6_today_contains_old_token :
    oldIndicators.any (fun ind => strContains (pyLower "today") ind) = true
    ∧ (strContains "today" "昨天" || strContains "today" "yesterday") = false
    ∧ is_within_hours 0 0 0 (some "today") = true := by decide

/-- C6 (amended): a display text containing an "old" vocabulary token, not
naming "yesterday", and containing no "recent" vocabulary token, makes
`is_within_hours` return false for every threshold and instant — the text
verdict is authoritative and the numeric comparison is never consulted. -/
theorem c6_old_text_without_recent_is_excluded (now ts thr : Int) (t : String)
    (hrec : recentIndicators.any (fun ind => strContains (pyLower t) ind) = false)
    (hyest : (strContains t "昨天" || strContains t "yesterday") = false)
    (hold : oldIndicators.any (fun ind => strContains (pyLower t) ind) = true) :
    is_within_hours now ts thr (some t) = false :=
  within_hours_of_oldAny now ts thr hrec hyest hold

/-- Witness for `c6_old_text_without_recent_is_excluded` at the display text
"3 days ago" with a huge threshold and an instant well inside it. -/
theorem c6_old_text_without_recent_is_excluded_witness :
    is_within_hours 0 0 1000 (some "3 days ago") = false :=
  c6_old_text_without_recent_is_excluded 0 0 1000 "3 days ago"
    (by decide) (by decide) (by decide)

/-- C7: a display text containing any "recent" vocabulary token makes
`is_within_hours` return true for every threshold value and every instant
supplied. -/
theorem c7_recent_text_always_within (now ts thr : Int) (t : String)
    (hrec : recentIndicators.any (fun ind => strContains (pyLower t) ind) = true) :
    is_within_hours now ts thr (some t) = true :=
  within_hours_of_recentAny now ts thr hrec

/-- Witness for `c7_recent_text_always_within` at the display text "5 hours"
with threshold 0 and an instant far outside the window. -/
theorem c7_recent_text_always_within_witness :
    is_within_hours 0 1000000 0 (some "5 hours") = true :=
  c7_recent_text_always_within 0 1000000 0 "5 hours" (by decide)

/-! ## The regular-expression searches of `parse_instagram_timestamp`

Each `re.search` of src/lib/date_utils.py is translated into a left-to-right
scanner over the character list.  `\d` is modelled by ASCII digits and `\s`
by `Char.isWhitespace` (the unit vocabularies start with non-space,
non-digit characters, so the greedy `\d+`/`\s*` parts of the patterns cannot
backtrack usefully, and a per-position scan realises `re.search`'s leftmost
match). -/

def digitVal (c : Char) : Nat := c.toNat - 48

/-- `int(...)` of a digit-run capture group. -/
def digitsToNat (ds : List Char) : Nat := ds.foldl (fun a c => 10 * a + digitVal c) 0

def skipSpaces (s : List Char) : List Char := s.dropWhile Char.isWhitespace

/-- One position of `re.search(r'(\d+)\s*(u1|u2|...)', s)`: a digit run here,
then optional whitespace, then one of the unit alternates; yields the run's
numeric value (the `group(1)` capture). -/
def matchNumUnitAt (units : List String) (s : List Char) : Option Nat :=
  let run := s.takeWhile Char.isDigit
  if run = [] then none
  else if units.any (fun u => startsWith (skipSpaces (s.dropWhile Char.isDigit)) u.data)
  then some (digitsToNat run)
  else none

/-- `re.search(r'(\d+)\s*(u1|u2|...)', s)`, leftmost match. -/
def searchNumUnit (units : List String) : List Char → Option Nat
  | [] => none
  | c :: rest =>
    match matchNumUnitAt units (c :: rest) with
    | some n => some n
    | none => searchNumUnit units rest

/-- One position of `re.search(r'(\d+):(\d+)', s)`. -/
def matchTimeAt (s : List Char) : Option (Nat × Nat) :=
  let run := s.takeWhile Char.isDigit
  if run = [] then none
  else
    match s.dropWhile Char.isDigit with
    | ':' :: after =>
      let run2 := after.takeWhile Char.isDigit
      if run2 = [] then none else some (digitsToNat run, digitsToNat run2)
    | _ => none

/-- `re.search(r'(\d+):(\d+)', s)`, leftmost match (hour/minute capture of the
"today HH:MM" and explicit-date branches). -/
def searchTimePair : List Char → Option (Nat × Nat)
  | [] => none
  | c :: rest =>
    match matchTimeAt (c :: rest) with
    | some p => some p
    | none => searchTimePair rest

/-- Greedy `\d{1,2}` followed by the literal `sep`; yields the captured value
and the remainder after `sep`.  (Backtracking from two digits to one cannot
succeed, because `sep` is not a digit.) -/
def matchOneOrTwoDigits (sep : Char) : List Char → Option (Nat × List Char)
  | x :: y :: t =>
    if x.isDigit then
      if y.isDigit then
        match t with
        | s' :: t' => if s' = sep then some (10 * digitVal x + digitVal y, t') else none
        | [] => none
      else if y = sep then some (digitVal x, t) else none
    else none
  | _ => none

/-- One position of `re.search(r'(\d{4})年(\d{1,2})月(\d{1,2})日', s)`. -/
def matchCnDateAt : List Char → Option (Nat × Nat × Nat)
  | a :: b :: c :: d :: sep :: rest =>
    if a.isDigit && b.isDigit && c.isDigit && d.isDigit && sep = '年' then
      match matchOneOrTwoDigits '月' rest with
      | some (m, rest2) =>
        match matchOneOrTwoDigits '日' rest2 with
        | some (dd, _) => some (digitsToNat [a, b, c, d], m, dd)
        | none => none
      | none => none
    else none
  | _ => none

/-- `re.search(r'(\d{4})年(\d{1,2})月(\d{1,2})日', s)`, leftmost match. -/
def searchCnDate : List Char → Option (Nat × Nat × Nat)
  | [] => none
  | c :: rest =>
    match matchCnDateAt (c :: rest) with
    | some p => some p
    | none => searchCnDate rest

/-- `\d+` followed by the literal `sep`; yields the remainder. -/
def matchDigitsThen (sep : Char) (s : List Char) : Option (List Char) :=
  let run := s.takeWhile Char.isDigit
  if run = [] then none
  else
    match s.dropWhile Char.isDigit with
    | c :: t => if c = sep then some t else none
    | [] => none

/-- One position of the guard pattern `\d+年\d+月\d+日`. -/
def matchFullCnDateAt (s : List Char) : Bool :=
  match matchDigitsThen '年' s with
  | none => false
  | some r1 =>
    match matchDigitsThen '月' r1 with
    | none => false
    | some r2 => (matchDigitsThen '日' r2).isSome

/-- `re.search(r'\d+年\d+月\d+日', s)` as a boolean (the guard at
src/lib/date_utils.py lines 93 and 99). -/
def searchFullCnDate : List Char → Bool
  | [] => false
  | c :: rest => matchFullCnDateAt (c :: rest) || searchFullCnDate rest

example : searchNumUnit ["分钟", "minutes", "minute", "min"] "25 min ago".data = some 25 := by decide
example : searchNumUnit ["小时", "hours", "hour", "hr"] "today 8:30".data = none := by decide
example : searchTimePair "今天 25:30".data = some (25, 30) := by decide
example : searchTimePair "hello".data = none := by decide
example : searchCnDate "2023年6月15日".data = some (2023, 6, 15) := by decide
example : searchFullCnDate "2023年6月15日".data = true := by decide
example : searchFullCnDate "6月".data = false := by decide

/-! ## `parse_instagram_timestamp` (src/lib/date_utils.py, lines 38-122)

The function's return value is modelled symbolically: a value of `Instant`
records which datetime expression the source returns (all of them offsets
from the `now` read at line 48).  The `now` reference itself is an explicit
`PyDateTime` argument, because whether a branch raises depends on it.  A
raised exception is the `Except.error` case; on a string input the
statements that can raise, all outside the final `try`, are:

* `now.replace(hour, minute, ...)` in the "today" branch and
  `datetime.datetime(y, m, d, ...)` in the explicit-date branch —
  `ValueError` on out-of-range components (`MINYEAR = 1`, `MAXYEAR = 9999`);
* `datetime.timedelta(minutes/hours/days/weeks = n)` — `OverflowError` when
  the normalized day count exceeds 999999999;
* `now - timedelta(...)` — `OverflowError` when the result falls before
  `datetime.min` (subtracting the non-negative captured offset can never
  exceed `datetime.max`);
* `now - relativedelta(months/years = n)` — `ValueError` when the shifted
  year leaves `[1, 9999]` (dateutil clamps the day to the target month's
  length, which never raises).

The last-resort `dateutil.parser.parse` is an external library call,
modelled as an environment predicate `dateutilParses : String → Bool`
telling whether it succeeds on the text; its bare `except` is the only
exception handler. -/

inductive Instant where
  | now : Instant
  | minusMinutes : Nat → Instant
  | minusHours : Nat → Instant
  | minusDays : Nat → Instant
  | minusWeeks : Nat → Instant
  | minusMonths : Nat → Instant
  | minusYears : Nat → Instant
  /-- `now.replace(hour=h, minute=mi, second=0, microsecond=0)`. -/
  | todayAt : Nat → Nat → Instant
  /-- `datetime.datetime(y, m, d, h, mi)`. -/
  | absolute : Nat → Nat → Nat → Nat → Nat → Instant
  /-- the value of `dateutil.parser.parse(text)`. -/
  | generic : String → Instant
deriving DecidableEq

def isLeapYear (y : Nat) : Bool := y % 4 = 0 && (y % 100 ≠ 0 || y % 400 = 0)

def daysInMonth (y m : Nat) : Nat :=
  if m = 2 then (if isLeapYear y then 29 else 28)
  else if m = 4 || m = 6 || m = 9 || m = 11 then 30
  else 31

/-- The `datetime.datetime.now()` value of line 48 (the microsecond field is
omitted: the offsets subtracted are whole seconds, so with
`0 ≤ microsecond < 10^6` it can never tip the below-`datetime.min`
comparison). -/
structure PyDateTime where
  year : Nat
  month : Nat
  day : Nat
  hour : Nat
  minute : Nat
  second : Nat
deriving DecidableEq

/-- CPython's `_days_before_year`: days between 0001-01-01 and the given
year's January 1st in the proleptic Gregorian calendar. -/
def daysBeforeYear (y : Nat) : Nat :=
  (y - 1) * 365 + (y - 1) / 4 - (y - 1) / 100 + (y - 1) / 400

/-- CPython's `_days_before_month`. -/
def daysBeforeMonth (y m : Nat) : Nat :=
  (List.range (m - 1)).foldl (fun acc i => acc + daysInMonth y (i + 1)) 0

/-- `datetime.toordinal()`: 0001-01-01 is day 1. -/
def toOrdinal (d : PyDateTime) : Nat :=
  daysBeforeYear d.year + daysBeforeMonth d.year d.month + d.day

/-- Whole seconds between `datetime.min` (0001-01-01 00:00:00) and `d`. -/
def secondsFromMin (d : PyDateTime) : Nat :=
  (toOrdinal d - 1) * 86400 + d.hour * 3600 + d.minute * 60 + d.second

/-- `now - datetime.timedelta(<seconds>)` stays representable: the
timedelta's normalized day count is within ±999999999, and the result does
not fall before `datetime.min`.  (For any representable `now` the second
bound is the stronger one, so the negation inside `datetime.__sub__` cannot
overflow either.) -/
def subOk (now : PyDateTime) (seconds : Nat) : Bool :=
  decide (seconds / 86400 ≤ 999999999 ∧ seconds ≤ secondsFromMin now)

/-- `now - datetime.timedelta(...)` for a captured offset of `seconds` whole
seconds: `OverflowError` (at timedelta construction or at the subtraction)
unless `subOk`. -/
def subTimedelta (now : PyDateTime) (seconds : Nat) (v : Instant) :
    Except Unit Instant :=
  if subOk now seconds then Except.ok v else Except.error ()

/-- The year of `now - relativedelta(months=n)`: dateutil folds the month
count into years+months and borrows one year when the month underflows,
which is floor division on the zero-based total month index. -/
def monthsShiftYear (now : PyDateTime) (n : Nat) : Int :=
  Int.fdiv ((now.year : Int) * 12 + (now.month : Int) - 1 - (n : Int)) 12

def subMonthsOk (now : PyDateTime) (n : Nat) : Bool :=
  decide (1 ≤ monthsShiftYear now n ∧ monthsShiftYear now n ≤ 9999)

/-- `now - relativedelta(months=n)`: `ValueError` (from
`calendar.monthrange` / `datetime.replace` on the shifted year) unless the
resulting year stays in `[1, 9999]`; the day is clamped to the target
month's length, which never raises. -/
def subMonths (now : PyDateTime) (n : Nat) : Except Unit Instant :=
  if subMonthsOk now n then Except.ok (Instant.minusMonths n) else Except.error ()

def subYearsOk (now : PyDateTime) (n : Nat) : Bool :=
  decide (1 ≤ (now.year : Int) - (n : Int) ∧ (now.year : Int) - (n : Int) ≤ 9999)

/-- `now - relativedelta(years=n)`: `ValueError` unless `now.year - n` stays
in `[1, 9999]` (the day is clamped for February 29th, which never raises). -/
def subYears (now : PyDateTime) (n : Nat) : Except Unit Instant :=
  if subYearsOk now n then Except.ok (Instant.minusYears n) else Except.error ()

/-- `datetime.datetime(y, m, d, h, mi)`: raises `ValueError` outside the
documented component ranges (`MINYEAR = 1`, `MAXYEAR = 9999`). -/
def mkDatetime (y m d h mi : Nat) : Except Unit Instant :=
  if 1 ≤ y ∧ y ≤ 9999 ∧ 1 ≤ m ∧ m ≤ 12 ∧ 1 ≤ d ∧ d ≤ daysInMonth y m
     ∧ h ≤ 23 ∧ mi ≤ 59
  then Except.ok (Instant.absolute y m d h mi) else Except.error ()

def justNowTerms : List String := ["刚刚", "just now", "几秒", "seconds", "second", "sec"]
def minuteUnits : List String := ["分钟", "minutes", "minute", "min"]
def hourUnits : List String := ["小时", "hours", "hour", "hr"]
def dayUnits : List String := ["天", "days", "day"]
def weekUnits : List String := ["周", "星期", "weeks", "week", "wk"]
def monthUnits : List String := ["月", "months", "month"]
def yearUnits : List String := ["年", "years", "year", "yr"]

/-- Line 116-122: `dateutil.parser.parse(timestamp_text)` guarded by the bare
`except` that returns `now`. -/
def genericStep (dateutilParses : String → Bool) (timestamp_text : String) :
    Except Unit Instant :=
  if dateutilParses timestamp_text then Except.ok (Instant.generic timestamp_text)
  else Except.ok Instant.now

/-- Lines 105-113: the explicit `YYYY年M月D日` date (with optional `HH:MM`),
else fall through to the generic parse. -/
def cnDateStep (dateutilParses : String → Bool) (timestamp_text : String) :
    Except Unit Instant :=
  match searchCnDate timestamp_text.data with
  | some (y, m, d) =>
    match searchTimePair timestamp_text.data with
    | some (h, mi) => mkDatetime y m d h mi
    | none => mkDatetime y m d 0 0
  | none => genericStep dateutilParses timestamp_text

/-- Lines 98-101: `<N> years`, guarded against `\d+年\d+月\d+日` matching the
original text. -/
def yearsStep (dateutilParses : String → Bool) (now : PyDateTime)
    (timestamp_text : String) : Except Unit Instant :=
  match searchNumUnit yearUnits (pyLower timestamp_text).data with
  | some n =>
    if searchFullCnDate timestamp_text.data then cnDateStep dateutilParses timestamp_text
    else subYears now n
  | none => cnDateStep dateutilParses timestamp_text

/-- Lines 92-95: `<N> months`, with the same guard. -/
def monthsStep (dateutilParses : String → Bool) (now : PyDateTime)
    (timestamp_text : String) : Except Unit Instant :=
  match searchNumUnit monthUnits (pyLower timestamp_text).data with
  | some n =>
    if searchFullCnDate timestamp_text.data then yearsStep dateutilParses now timestamp_text
    else subMonths now n
  | none => yearsStep dateutilParses now timestamp_text

/-- `parse_instagram_timestamp(timestamp_text)`, src/lib/date_utils.py lines
38-122, with the branch chain in source order. -/
def parse_instagram_timestamp (dateutilParses : String → Bool) (now : PyDateTime)
    (timestamp_text : String) : Except Unit Instant :=
  if justNowTerms.any (fun term => strContains (pyLower timestamp_text) term) then
    Except.ok Instant.now
  else match searchNumUnit minuteUnits (pyLower timestamp_text).data with
  | some n => subTimedelta now (60 * n) (Instant.minusMinutes n)
  | none =>
  match searchNumUnit hourUnits (pyLower timestamp_text).data with
  | some n => subTimedelta now (3600 * n) (Instant.minusHours n)
  | none =>
  if strContains (pyLower timestamp_text) "昨天"
     || strContains (pyLower timestamp_text) "yesterday" then
    subTimedelta now 86400 (Instant.minusDays 1)
  else if strContains (pyLower timestamp_text) "今天"
     || strContains (pyLower timestamp_text) "today" then
    match searchTimePair timestamp_text.data with
    | some (h, mi) =>
      if h ≤ 23 ∧ mi ≤ 59 then Except.ok (Instant.todayAt h mi) else Except.error ()
    | none => Except.ok (Instant.todayAt 0 0)
  else match searchNumUnit dayUnits (pyLower timestamp_text).data with
  | some n => subTimedelta now (86400 * n) (Instant.minusDays n)
  | none =>
  match searchNumUnit weekUnits (pyLower timestamp_text).data with
  | some n => subTimedelta now (604800 * n) (Instant.minusWeeks n)
  | none => monthsStep dateutilParses now timestamp_text

/-- A reference `now` for the concrete evaluations: 2024-01-10 12:00:00. -/
def now2024 : PyDateTime := ⟨2024, 1, 10, 12, 0, 0⟩

example : parse_instagram_timestamp (fun _ => false) now2024 "just now"
    = Except.ok Instant.now := by rfl
example : parse_instagram_timestamp (fun _ => false) now2024 "25 minutes"
    = Except.ok (Instant.minusMinutes 25) := by rfl
example : parse_instagram_timestamp (fun _ => false) now2024 "3 hours"
    = Except.ok (Instant.minusHours 3) := by rfl
example : parse_instagram_timestamp (fun _ => false) now2024 "yesterday"
    = Except.ok (Instant.minusDays 1) := by rfl
example : parse_instagram_timestamp (fun _ => false) now2024 "today 8:30"
    = Except.ok (Instant.todayAt 8 30) := by rfl
example : parse_instagram_timestamp (fun _ => false) now2024 "2 days"
    = Except.ok (Instant.minusDays 2) := by rfl
example : parse_instagram_timestamp (fun _ => false) now2024 "2023年6月15日"
    = Except.ok (Instant.absolute 2023 6 15 0 0) := by rfl
example : parse_instagram_timestamp (fun _ => false) now2024 "hello"
    = Except.ok Instant.now := by rfl
example : parse_instagram_timestamp (fun _ => true) now2024 "2023-06-15"
    = Except.ok (Instant.generic "2023-06-15") := by rfl

/- The uncaught raises of the offset branches: "3000 years" reaches
`now.replace(year=-976)` (`ValueError`), "999999999999 days" overflows the
timedelta day bound (`OverflowError`), "20000000 hours" lands before
`datetime.min` (`OverflowError` at the subtraction) while "17000000 hours"
still parses, and "24300 months" shifts the year below 1. -/
example : parse_instagram_timestamp (fun _ => false) now2024 "3000 years"
    = Except.error () := by rfl
example : parse_instagram_timestamp (fun _ => false) now2024 "999999999999 days"
    = Except.error () := by rfl
example : parse_instagram_timestamp (fun _ => false) now2024 "20000000 hours"
    = Except.error () := by rfl
example : parse_instagram_timestamp (fun _ => false) now2024 "17000000 hours"
    = Except.ok (Instant.minusHours 17000000) := by rfl
example : parse_instagram_timestamp (fun _ => false) now2024 "24300 months"
    = Except.error () := by rfl

/-- The `HH:MM` capture of the text, if any, lies inside the ranges accepted
by `now.replace` / the `datetime` constructor. -/
def timeOk (text : String) : Bool :=
  match searchTimePair text.data with
  | some (h, mi) => decide (h ≤ 23 ∧ mi ≤ 59)
  | none => true

/-- The `YYYY年M月D日` capture of the text, if any, lies inside the ranges
accepted by the `datetime` constructor. -/
def cnDateOk (text : String) : Bool :=
  match searchCnDate text.data with
  | some (y, m, d) =>
    decide (1 ≤ y ∧ y ≤ 9999 ∧ 1 ≤ m ∧ m ≤ 12 ∧ 1 ≤ d ∧ d ≤ daysInMonth y m)
  | none => true

/-! The per-branch in-range conditions for the relative-offset patterns:
each captured count, if present, must keep the shifted instant
representable. -/

def minutesOffsetOk (now : PyDateTime) (text : String) : Bool :=
  match searchNumUnit minuteUnits (pyLower text).data with
  | some n => subOk now (60 * n)
  | none => true

def hoursOffsetOk (now : PyDateTime) (text : String) : Bool :=
  match searchNumUnit hourUnits (pyLower text).data with
  | some n => subOk now (3600 * n)
  | none => true

def yesterdayOffsetOk (now : PyDateTime) (text : String) : Bool :=
  !(strContains (pyLower text) "昨天" || strContains (pyLower text) "yesterday")
  || subOk now 86400

def daysOffsetOk (now : PyDateTime) (text : String) : Bool :=
  match searchNumUnit dayUnits (pyLower text).data with
  | some n => subOk now (86400 * n)
  | none => true

def weeksOffsetOk (now : PyDateTime) (text : String) : Bool :=
  match searchNumUnit weekUnits (pyLower text).data with
  | some n => subOk now (604800 * n)
  | none => true

def monthsOffsetOk (now : PyDateTime) (text : String) : Bool :=
  match searchNumUnit monthUnits (pyLower text).data with
  | some n => subMonthsOk now n
  | none => true

def yearsOffsetOk (now : PyDateTime) (text : String) : Bool :=
  match searchNumUnit yearUnits (pyLower text).data with
  | some n => subYearsOk now n
  | none => true

def offsetsOk (now : PyDateTime) (text : String) : Bool :=
  minutesOffsetOk now text && hoursOffsetOk now text && yesterdayOffsetOk now text
  && daysOffsetOk now text && weeksOffsetOk now text && monthsOffsetOk now text
  && yearsOffsetOk now text

/-- The text matches none of the grammar's patterns, so the source reaches
its last-resort `dateutil.parser.parse` call (the month/year disjuncts: a
month or year unit match suppressed by the `\d+年\d+月\d+日` guard also falls
through). -/
def matchesNoPattern (text : String) : Bool :=
  !(justNowTerms.any (fun term => strContains (pyLower text) term)) &&
  (searchNumUnit minuteUnits (pyLower text).data).isNone &&
  (searchNumUnit hourUnits (pyLower text).data).isNone &&
  !(strContains (pyLower text) "昨天" || strContains (pyLower text) "yesterday") &&
  !(strContains (pyLower text) "今天" || strContains (pyLower text) "today") &&
  (searchNumUnit dayUnits (pyLower text).data).isNone &&
  (searchNumUnit weekUnits (pyLower text).data).isNone &&
  ((searchNumUnit monthUnits (pyLower text).data).isNone || searchFullCnDate text.data) &&
  ((searchNumUnit yearUnits (pyLower text).data).isNone || searchFullCnDate text.data) &&
  (searchCnDate text.data).isNone

lemma genericStep_ok (g : String → Bool) (t : String) :
    ∃ v, genericStep g t = Except.ok v := by
  unfold genericStep; split <;> exact ⟨_, rfl⟩

lemma cnDateStep_ok (g : String → Bool) (t : String)
    (htime : timeOk t = true) (hdate : cnDateOk t = true) :
    ∃ v, cnDateStep g t = Except.ok v := by
  unfold cnDateStep
  cases hcn : searchCnDate t.data with
  | none => exact genericStep_ok g t
  | some ymd =>
    obtain ⟨y, m, d⟩ := ymd
    dsimp only
    have hd : 1 ≤ y ∧ y ≤ 9999 ∧ 1 ≤ m ∧ m ≤ 12 ∧ 1 ≤ d ∧ d ≤ daysInMonth y m := by
      have hh := hdate
      unfold cnDateOk at hh
      rw [hcn] at hh
      exact of_decide_eq_true hh
    cases htp : searchTimePair t.data with
    | none =>
      dsimp only
      refine ⟨Instant.absolute y m d 0 0, ?_⟩
      unfold mkDatetime
      rw [if_pos ⟨hd.1, hd.2.1, hd.2.2.1, hd.2.2.2.1, hd.2.2.2.2.1, hd.2.2.2.2.2,
        by decide, by decide⟩]
    | some hm =>
      obtain ⟨h, mi⟩ := hm
      dsimp only
      have ht : h ≤ 23 ∧ mi ≤ 59 := by
        have hh := htime
        unfold timeOk at hh
        rw [htp] at hh
        exact of_decide_eq_true hh
      refine ⟨Instant.absolute y m d h mi, ?_⟩
      unfold mkDatetime
      rw [if_pos ⟨hd.1, hd.2.1, hd.2.2.1, hd.2.2.2.1, hd.2.2.2.2.1, hd.2.2.2.2.2,
        ht.1, ht.2⟩]

lemma yearsStep_ok (g : String → Bool) (now : PyDateTime) (t : String)
    (htime : timeOk t = true) (hdate : cnDateOk t = true)
    (hyr : yearsOffsetOk now t = true) :
    ∃ v, yearsStep g now t = Except.ok v := by
  unfold yearsStep
  cases hy : searchNumUnit yearUnits (pyLower t).data with
  | none => exact cnDateStep_ok g t htime hdate
  | some n =>
    dsimp only
    have hok : subYearsOk now n = true := by
      have hh := hyr
      unfold yearsOffsetOk at hh
      rw [hy] at hh
      exact hh
    by_cases hg : searchFullCnDate t.data = true
    · rw [if_pos hg]; exact cnDateStep_ok g t htime hdate
    · rw [if_neg hg]
      refine ⟨Instant.minusYears n, ?_⟩
      unfold subYears
      rw [if_pos hok]

lemma monthsStep_ok (g : String → Bool) (now : PyDateTime) (t : String)
    (htime : timeOk t = true) (hdate : cnDateOk t = true)
    (hmon : monthsOffsetOk now t = true) (hyr : yearsOffsetOk now t = true) :
    ∃ v, monthsStep g now t = Except.ok v := by
  unfold monthsStep
  cases hm : searchNumUnit monthUnits (pyLower t).data with
  | none => exact yearsStep_ok g now t htime hdate hyr
  | some n =>
    dsimp only
    have hok : subMonthsOk now n = true := by
      have hh := hmon
      unfold monthsOffsetOk at hh
      rw [hm] at hh
      exact hh
    by_cases hg : searchFullCnDate t.data = true
    · rw [if_pos hg]; exact yearsStep_ok g now t htime hdate hyr
    · rw [if_neg hg]
      refine ⟨Instant.minusMonths n, ?_⟩
      unfold subMonths
      rw [if_pos hok]

/-- C5 (counterexample): on the display text "今天 25:30" the source reaches
`now.replace(hour=25, minute=30, ...)`, which raises `ValueError` — so
`parse_instagram_timestamp` is not total and does not resolve every
unparseable text to "now".  (The relative-offset branches raise too, e.g.
"3000 years" reaches `now.replace(year=-976)`; see the examples above.) -/
theorem c5_raises_on_today_with_invalid_time :
    parse_instagram_timestamp (fun _ => false) now2024 "今天 25:30"
      = Except.error () := by rfl

/-- C5 (amended): `parse_instagram_timestamp` returns an instant and never
raises provided every matched pattern's computation stays in range: any
captured `HH:MM` / `YYYY年M月D日` components within the `datetime` ranges,
and any captured relative offset (minutes/hours/yesterday/days/weeks/
months/years) keeping the shifted instant representable; and on a text
matching none of the grammar's patterns whose last-resort generic parse
also fails, it returns "now". -/
theorem c5_total_with_now_fallback (g : String → Bool) (now : PyDateTime)
    (text : String) (htime : timeOk text = true) (hdate : cnDateOk text = true)
    (hoff : offsetsOk now text = true) :
    (∃ v, parse_instagram_timestamp g now text = Except.ok v)
    ∧ (matchesNoPattern text = true → g text = false →
       parse_instagram_timestamp g now text = Except.ok Instant.now) := by
  have hoffs := hoff
  simp only [offsetsOk, Bool.and_eq_true] at hoffs
  obtain ⟨⟨⟨⟨⟨⟨homin, hohr⟩, hoyd⟩, hoday⟩, howeek⟩, homon⟩, hoyr⟩ := hoffs
  constructor
  · unfold parse_instagram_timestamp
    by_cases hjn : (justNowTerms.any fun term => strContains (pyLower text) term) = true
    · rw [if_pos hjn]; exact ⟨_, rfl⟩
    rw [if_neg hjn]
    cases hmin : searchNumUnit minuteUnits (pyLower text).data with
    | some n =>
      dsimp only
      refine ⟨Instant.minusMinutes n, ?_⟩
      have hok : subOk now (60 * n) = true := by
        have hh := homin
        unfold minutesOffsetOk at hh
        rw [hmin] at hh
        exact hh
      unfold subTimedelta
      rw [if_pos hok]
    | none =>
    dsimp only
    cases hhr : searchNumUnit hourUnits (pyLower text).data with
    | some n =>
      dsimp only
      refine ⟨Instant.minusHours n, ?_⟩
      have hok : subOk now (3600 * n) = true := by
        have hh := hohr
        unfold hoursOffsetOk at hh
        rw [hhr] at hh
        exact hh
      unfold subTimedelta
      rw [if_pos hok]
    | none =>
    dsimp only
    by_cases hyest : (strContains (pyLower text) "昨天"
        || strContains (pyLower text) "yesterday") = true
    · rw [if_pos hyest]
      refine ⟨Instant.minusDays 1, ?_⟩
      have hok : subOk now 86400 = true := by
        have hh := hoyd
        unfold yesterdayOffsetOk at hh
        rw [hyest] at hh
        simpa using hh
      unfold subTimedelta
      rw [if_pos hok]
    rw [if_neg hyest]
    by_cases htoday : (strContains (pyLower text) "今天"
        || strContains (pyLower text) "today") = true
    · rw [if_pos htoday]
      cases htp : searchTimePair text.data with
      | some hm =>
        obtain ⟨h, mi⟩ := hm
        dsimp only
        have ht : h ≤ 23 ∧ mi ≤ 59 := by
          have hh := htime
          unfold timeOk at hh
          rw [htp] at hh
          exact of_decide_eq_true hh
        rw [if_pos ht]; exact ⟨_, rfl⟩
      | none => exact ⟨_, rfl⟩
    rw [if_neg htoday]
    cases hday : searchNumUnit dayUnits (pyLower text).data with
    | some n =>
      dsimp only
      refine ⟨Instant.minusDays n, ?_⟩
      have hok : subOk now (86400 * n) = true := by
        have hh := hoday
        unfold daysOffsetOk at hh
        rw [hday] at hh
        exact hh
      unfold subTimedelta
      rw [if_pos hok]
    | none =>
    dsimp only
    cases hweek : searchNumUnit weekUnits (pyLower text).data with
    | some n =>
      dsimp only
      refine ⟨Instant.minusWeeks n, ?_⟩
      have hok : subOk now (604800 * n) = true := by
        have hh := howeek
        unfold weeksOffsetOk at hh
        rw [hweek] at hh
        exact hh
      unfold subTimedelta
      rw [if_pos hok]
    | none => exact monthsStep_ok g now text htime hdate homon hoyr
  · intro hnp hg
    simp only [matchesNoPattern, Bool.and_eq_true] at hnp
    obtain ⟨⟨⟨⟨⟨⟨⟨⟨⟨hjn, hmin⟩, hhr⟩, hyest⟩, htoday⟩, hday⟩, hweek⟩, hmonth⟩,
      hyear⟩, hcn⟩ := hnp
    have hjn2 : (justNowTerms.any fun term => strContains (pyLower text) term) = false := by
      simpa using hjn
    have hmin2 : searchNumUnit minuteUnits (pyLower text).data = none :=
      Option.isNone_iff_eq_none.mp hmin
    have hhr2 : searchNumUnit hourUnits (pyLower text).data = none :=
      Option.isNone_iff_eq_none.mp hhr
    have hyest2 : (strContains (pyLower text) "昨天"
        || strContains (pyLower text) "yesterday") = false := by simpa using hyest
    have htoday2 : (strContains (pyLower text) "今天"
        || strContains (pyLower text) "today") = false := by simpa using htoday
    have hday2 : searchNumUnit dayUnits (pyLower text).data = none :=
      Option.isNone_iff_eq_none.mp hday
    have hweek2 : searchNumUnit weekUnits (pyLower text).data = none :=
      Option.isNone_iff_eq_none.mp hweek
    have hcn2 : searchCnDate text.data = none := Option.isNone_iff_eq_none.mp hcn
    have hcnStep : cnDateStep g text = Except.ok Instant.now := by
      unfold cnDateStep
      rw [hcn2]
      unfold genericStep
      rw [hg]
      simp
    have hyearsStep : yearsStep g now text = Except.ok Instant.now := by
      unfold yearsStep
      cases hy : searchNumUnit yearUnits (pyLower text).data with
      | none => exact hcnStep
      | some n =>
        dsimp only
        rcases (by simpa using hyear :
            searchNumUnit yearUnits (pyLower text).data = none
            ∨ searchFullCnDate text.data = true) with hh | hh
        · rw [hy] at hh; exact absurd hh (by simp)
        · rw [if_pos hh]; exact hcnStep
    have hmonthsStep : monthsStep g now text = Except.ok Instant.now := by
      unfold monthsStep
      cases hmm : searchNumUnit monthUnits (pyLower text).data with
      | none => exact hyearsStep
      | some n =>
        dsimp only
        rcases (by simpa using hmonth :
            searchNumUnit monthUnits (pyLower text).data = none
            ∨ searchFullCnDate text.data = true) with hh | hh
        · rw [hmm] at hh; exact absurd hh (by simp)
        · rw [if_pos hh]; exact hyearsStep
    unfold parse_instagram_timestamp
    rw [if_neg (by simp [hjn2]), hmin2, hhr2, if_neg (by simp [hyest2]),
      if_neg (by simp [htoday2]), hday2, hweek2]
    exact hmonthsStep

/-- Witness for `c5_total_with_now_fallback`: the unparseable text "hello"
with a failing generic parse resolves to "now". -/
theorem c5_total_with_now_fallback_witness :
    parse_instagram_timestamp (fun _ => false) now2024 "hello"
      = Except.ok Instant.now :=
  (c5_total_with_now_fallback (fun _ => false) now2024 "hello"
    (by decide) (by decide) (by decide)).2 (by decide) rfl

/-! ## `_is_pinned_post` (src/lib/post_extractor.py, lines 442-490) -/

/-- `href.split(sep)[1].split('/')[0]` as the source computes it for
`sep ∈ {"/p/", "/reel/"}`: the text after the first occurrence of `sep`, up
to the next `'/'`.  (Equal to the two-step split because `sep` itself starts
with `'/'`: the first `'/'` after the first occurrence is no later than the
start of any further occurrence of `sep`.) -/
def idSegment (sep s : String) : String :=
  ⟨(dropThroughFirst sep.data s.data).takeWhile (fun c => c ≠ '/')⟩

example : idSegment "/p/" "https://x.com/p/ABC123/" = "ABC123" := by decide
example : idSegment "/p/" "/p/ABC/p/X" = "ABC" := by decide

/-- The per-`pinned_url` body of `_is_pinned_post`'s loop: suffix/substring
tolerance first, then equality of the ID segments following `/p/` or
`/reel/`. -/
def matchesPinnedUrl (href pinned_url : String) : Bool :=
  (endswith pinned_url href || strContains pinned_url href || strContains href pinned_url)
  || (strContains href "/p/" && strContains pinned_url "/p/"
      && idSegment "/p/" href = idSegment "/p/" pinned_url)
  || (strContains href "/reel/" && strContains pinned_url "/reel/"
      && idSegment "/reel/" href = idSegment "/reel/" pinned_url)

/-- `_is_pinned_post(post_element, pinned_posts)`.  `href` is the candidate's
resolved `href` attribute; `none` covers both a missing attribute and a
raised evaluation error, each of which makes the source return `False`. -/
def is_pinned_post (href : Option String) (pinned_posts : List String) : Bool :=
  if pinned_posts = [] then false
  else
    match href with
    | none => false
    | some h =>
      if h = "" then false
      else pinned_posts.any (fun pu => matchesPinnedUrl h pu)

example : is_pinned_post (some "/p/ABC123/")
    ["https://www.instagram.com/p/ABC123/"] = true := by decide
example : is_pinned_post (some "/p/XYZ/") ["/p/ABC/"] = false := by decide
example : is_pinned_post (some "/reel/R1/x") ["/reel/R1/y"] = true := by decide
example : is_pinned_post none ["/p/ABC/"] = false := by decide
example : is_pinned_post (some "/p/ABC/") [] = false := by decide

/-! ## `extract_recent_posts` (src/lib/post_extractor.py, lines 83-199)

The per-candidate loop over the located post elements, with the page's
responses supplied as a `Candidate` record per element: whether the element
is the stray-string case, its resolved `href`, whether clicking it raises,
whether the detail dialog then opens, and what `_extract_post_data` yields
once it is open (`none` is the extraction-failure / `NotFound` path; its own
exceptions are caught inside `_extract_post_data`, which then returns
`None`, so the loop's `except` is reached only by the `click`).  The loop is
translated into structural recursion that returns the appended lists; an
event trace records each `post_element.click()` (`Ev.click i` with `i` the
candidate's position), each append to `recent_posts`, and each
`_close_post_dialog()` call, in program order. -/

structure PostData where
  username : String
  author : String
  timestamp : Int
  timestamp_text : String
  caption : String
  image_urls : List String
deriving DecidableEq

structure Candidate where
  /-- `isinstance(post_element, str)` (line 132). -/
  isStr : Bool
  /-- the element's `href` attribute as read by `_is_pinned_post`. -/
  href : Option String
  /-- `post_element.click()` raises (the loop's `except` path). -/
  clickRaises : Bool
  /-- the detail dialog opens (`wait_for_selector` at line 592 succeeds). -/
  dialogOpens : Bool
  /-- what `_extract_post_data` returns once the dialog is open. -/
  extractResult : Option PostData
deriving DecidableEq

/-- `_extract_post_data`'s outcome for a clicked candidate: `None` when the
dialog never opened, otherwise the extraction result. -/
def extractOutcome (c : Candidate) : Option PostData :=
  if c.dialogOpens then c.extractResult else none

inductive Ev where
  | click : Nat → Ev
  | append : Nat → PostData → Ev
  | close : Ev
deriving DecidableEq

structure ScanConfig where
  /-- `self.config.HOURS_THRESHOLD`. -/
  hoursThreshold : Int
  /-- the `datetime.now()` reference used by `is_within_hours`. -/
  now : Int
  /-- `POST_EXTRACTION_STRATEGY["max_posts_to_process"]` (5). -/
  maxPostsToProcess : Nat
deriving DecidableEq

structure ScanOutcome where
  posts : List PostData
  processed : Nat
  events : List Ev
deriving DecidableEq

/-- The loop body of `extract_recent_posts`, lines 125-196; `i` is the
enumeration index of the head candidate. -/
def scanGo (cfg : ScanConfig) (pinned : List String) :
    Nat → List Candidate → Nat → ScanOutcome
  | _, [], processed_count => ⟨[], processed_count, []⟩
  | i, c :: rest, processed_count =>
    if cfg.maxPostsToProcess ≤ processed_count then ⟨[], processed_count, []⟩
    else if c.isStr then scanGo cfg pinned (i + 1) rest processed_count
    else if is_pinned_post c.href pinned then scanGo cfg pinned (i + 1) rest processed_count
    else if c.clickRaises then
      let r := scanGo cfg pinned (i + 1) rest processed_count
      ⟨r.posts, r.processed, Ev.click i :: Ev.close :: r.events⟩
    else
      match extractOutcome c with
      | none =>
        let r := scanGo cfg pinned (i + 1) rest processed_count
        ⟨r.posts, r.processed, Ev.click i :: r.events⟩
      | some post_data =>
        if oldIndicators.any
            (fun ind => strContains (pyLower post_data.timestamp_text) ind) then
          if (strContains post_data.timestamp_text "昨天"
              || strContains post_data.timestamp_text "yesterday")
             ∧ yesterdaySpecial ≤ cfg.hoursThreshold then
            if is_within_hours cfg.now post_data.timestamp cfg.hoursThreshold
                (some post_data.timestamp_text) then
              ⟨[post_data], processed_count + 1,
                [Ev.click i, Ev.append i post_data, Ev.close]⟩
            else ⟨[], processed_count + 1, [Ev.click i, Ev.close]⟩
          else ⟨[], processed_count + 1, [Ev.click i, Ev.close]⟩
        else if is_within_hours cfg.now post_data.timestamp cfg.hoursThreshold
            (some post_data.timestamp_text) then
          let r := scanGo cfg pinned (i + 1) rest (processed_count + 1)
          ⟨post_data :: r.posts, r.processed,
            Ev.click i :: Ev.append i post_data :: Ev.close :: r.events⟩
        else
          let r := scanGo cfg pinned (i + 1) rest (processed_count + 1)
          ⟨r.posts, r.processed, Ev.click i :: Ev.close :: r.events⟩

/-- `extract_recent_posts` from the point where the candidates are located
and the pinned set computed (the earlier navigation/locate failures return
`[]` before this loop). -/
def extract_recent_posts (cfg : ScanConfig) (pinned_posts : List String)
    (post_elements : List Candidate) : ScanOutcome :=
  scanGo cfg pinned_posts 0 post_elements 0

/-- The post carried by an append event. -/
def appendData : Ev → Option PostData
  | Ev.append _ pd => some pd
  | _ => none

/-- The candidate index an event belongs to (`none` for a close). -/
def evOwner : Ev → Option Nat
  | Ev.click i => some i
  | Ev.append i _ => some i
  | Ev.close => none

/-- The returned post list is exactly the appends of the event trace, in
order: appends are the only way a post enters `recent_posts`. -/
lemma scanGo_posts_eq (cfg : ScanConfig) (pinned : List String) :
    ∀ (l : List Candidate) (i proc : Nat),
    (scanGo cfg pinned i l proc).posts
      = (scanGo cfg pinned i l proc).events.filterMap appendData := by
  intro l
  induction l with
  | nil => intro i proc; simp [scanGo]
  | cons c rest ih =>
    intro i proc
    simp only [scanGo]
    split
    · simp
    split
    · exact ih _ _
    split
    · exact ih _ _
    split
    · simp [appendData, ih _ _]
    split
    · simp [appendData, ih _ _]
    split
    · split
      · split
        · simp [appendData]
        · simp [appendData]
      · simp [appendData]
    · split
      · simp [appendData, ih _ _]
      · simp [appendData, ih _ _]

/-- Every event of the scan trace belongs to a candidate the loop actually
processed: one that is not the stray-string case and whose href did not
match the pinned set. -/
lemma scanGo_event_owner (cfg : ScanConfig) (pinned : List String) :
    ∀ (l : List Candidate) (i proc : Nat) (e : Ev),
    e ∈ (scanGo cfg pinned i l proc).events →
    evOwner e = none
    ∨ ∃ k c, l.get? k = some c ∧ evOwner e = some (i + k)
        ∧ c.isStr = false ∧ is_pinned_post c.href pinned = false := by
  intro l
  induction l with
  | nil => intro i proc e he; simp [scanGo] at he
  | cons c rest ih =>
    intro i proc e he
    have shift : ∀ (proc' : Nat), e ∈ (scanGo cfg pinned (i + 1) rest proc').events →
        evOwner e = none
        ∨ ∃ k c', (c :: rest).get? k = some c' ∧ evOwner e = some (i + k)
            ∧ c'.isStr = false ∧ is_pinned_post c'.href pinned = false := by
      intro proc' hmem
      rcases ih (i + 1) proc' e hmem with h | ⟨k, c', hk, ho, hc1, hc2⟩
      · exact Or.inl h
      · refine Or.inr ⟨k + 1, c', by simpa using hk, ?_, hc1, hc2⟩
        rw [ho]; congr 1; omega
    simp only [scanGo] at he
    split at he
    · simp at he
    split at he
    · exact shift proc he
    split at he
    · exact shift proc he
    next hstr hpin =>
    have hstr' : c.isStr = false := by simpa using hstr
    have hpin' : is_pinned_post c.href pinned = false := by simpa using hpin
    have headCase : ∀ j, j = 0 → evOwner e = some (i + j) →
        evOwner e = none
        ∨ ∃ k c', (c :: rest).get? k = some c' ∧ evOwner e = some (i + k)
            ∧ c'.isStr = false ∧ is_pinned_post c'.href pinned = false := by
      intro j hj ho
      exact Or.inr ⟨j, c, by simp [hj], ho, hstr', hpin'⟩
    split at he
    · simp only [List.mem_cons] at he
      rcases he with rfl | rfl | he
      · exact headCase 0 rfl (by simp [evOwner])
      · exact Or.inl rfl
      · exact shift proc he
    split at he
    · simp only [List.mem_cons] at he
      rcases he with rfl | he
      · exact headCase 0 rfl (by simp [evOwner])
      · exact shift proc he
    · split at he
      · split at he
        · split at he
          · simp only [List.mem_cons] at he
            rcases he with rfl | rfl | rfl | he
            · exact headCase 0 rfl (by simp [evOwner])
            · exact headCase 0 rfl (by simp [evOwner])
            · exact Or.inl rfl
            · simp at he
          · simp only [List.mem_cons] at he
            rcases he with rfl | rfl | he
            · exact headCase 0 rfl (by simp [evOwner])
            · exact Or.inl rfl
            · simp at he
        · simp only [List.mem_cons] at he
          rcases he with rfl | rfl | he
          · exact headCase 0 rfl (by simp [evOwner])
          · exact Or.inl rfl
          · simp at he
      · split at he
        · simp only [List.mem_cons] at he
          rcases he with rfl | rfl | rfl | he
          · exact headCase 0 rfl (by simp [evOwner])
          · exact headCase 0 rfl (by simp [evOwner])
          · exact Or.inl rfl
          · exact shift _ he
        · simp only [List.mem_cons] at he
          rcases he with rfl | rfl | he
          · exact headCase 0 rfl (by simp [evOwner])
          · exact Or.inl rfl
          · exact shift _ he

/-- C8: a candidate whose href matches the pinned set — suffix/substring of
either string in the other, or equal `/p/` / `/reel/` ID segments, as
`_is_pinned_post` tests — is never clicked and contributes no append, and
the returned post list consists exactly of the appends of the other
candidates, so the pinned candidate never appears in it, regardless of its
own recency data. -/
theorem c8_pinned_candidate_skipped (cfg : ScanConfig) (pinned : List String)
    (cands : List Candidate) (i : Nat) (c : Candidate)
    (hget : cands.get? i = some c)
    (hpin : is_pinned_post c.href pinned = true) :
    Ev.click i ∉ (extract_recent_posts cfg pinned cands).events
    ∧ (∀ pd, Ev.append i pd ∉ (extract_recent_posts cfg pinned cands).events)
    ∧ (extract_recent_posts cfg pinned cands).posts
        = (extract_recent_posts cfg pinned cands).events.filterMap appendData := by
  have key : ∀ e : Ev, evOwner e = some i →
      e ∉ (extract_recent_posts cfg pinned cands).events := by
    intro e ho he
    rcases scanGo_event_owner cfg pinned cands 0 0 e he with h | ⟨k, c', hk, ho', _, hpin'⟩
    · rw [ho] at h; exact Option.noConfusion h
    · rw [ho] at ho'
      have hki : k = i := by
        have := Option.some.inj ho'; omega
      rw [hki, hget] at hk
      have : c' = c := (Option.some.inj hk).symm
      rw [this, hpin] at hpin'
      exact Bool.true_eq_false.mp hpin' |>.elim
  exact ⟨key (Ev.click i) rfl, fun pd => key (Ev.append i pd) rfl,
    scanGo_posts_eq cfg pinned cands 0 0⟩

/-- Witness for `c8_pinned_candidate_skipped`: a very recent candidate whose
relative href is a suffix of a full pinned URL is skipped — the scan
produces no events at all for it. -/
theorem c8_pinned_candidate_skipped_witness :
    Ev.click 0 ∉ (extract_recent_posts ⟨24, 0, 5⟩
        ["https://www.instagram.com/p/ABC123/"]
        [⟨false, some "/p/ABC123/", false, true,
          some ⟨"u", "u", 0, "5 hours", "", []⟩⟩]).events
    ∧ (extract_recent_posts ⟨24, 0, 5⟩
        ["https://www.instagram.com/p/ABC123/"]
        [⟨false, some "/p/ABC123/", false, true,
          some ⟨"u", "u", 0, "5 hours", "", []⟩⟩]).posts = [] := by
  have h := c8_pinned_candidate_skipped ⟨24, 0, 5⟩
    ["https://www.instagram.com/p/ABC123/"]
    [⟨false, some "/p/ABC123/", false, true, some ⟨"u", "u", 0, "5 hours", "", []⟩⟩]
    0 ⟨false, some "/p/ABC123/", false, true, some ⟨"u", "u", 0, "5 hours", "", []⟩⟩
    (by decide) (by decide)
  exact ⟨h.1, by decide⟩

/-! ## C3: the detail view is closed on every exit path — or is it?

`closedProperly f evs` says: for every `Ev.click i` in the trace with
`f i = true`, a `_close_post_dialog` call occurs before the next click (or
the end of the trace) — i.e. the iteration that clicked candidate `i`
closed the detail view before moving on. -/

/-- A close occurs before the next click or the end of the trace. -/
def closeBeforeNextClick : List Ev → Bool
  | [] => false
  | Ev.close :: _ => true
  | Ev.click _ :: _ => false
  | _ :: rest => closeBeforeNextClick rest

/-- Every click of a candidate selected by `f` is followed by a close within
its own iteration. -/
def closedProperly (f : Nat → Bool) : List Ev → Bool
  | [] => true
  | Ev.click i :: rest => (!f i || closeBeforeNextClick rest) && closedProperly f rest
  | _ :: rest => closedProperly f rest

/-- The iteration over candidate `i` opened a detail view: the click
succeeded and the dialog appeared. -/
def openedIdx (cands : List Candidate) (i : Nat) : Bool :=
  match cands.get? i with
  | some c => c.dialogOpens && !c.clickRaises
  | none => false

/-- The source closes the dialog in an iteration exactly when the click
raised (the `except` handler closes) or extraction succeeded; on the
extraction-failure `continue` (line 149) it does not. -/
def needsCloseOf (c : Candidate) : Bool :=
  c.clickRaises || (extractOutcome c).isSome

def needsCloseIdx (cands : List Candidate) (i : Nat) : Bool :=
  match cands.get? i with
  | some c => needsCloseOf c
  | none => false

/-- C3 (counterexample): candidate 0's detail dialog opens but extraction
fails (`_extract_post_data` returns `None`); the loop `continue`s to
candidate 1 without any close in between — the trace is
`[click 0, click 1, append 1 ..., close]` and the always-closed property is
false on it. -/
theorem c3_close_skipped_on_extract_failure :
    (extract_recent_posts ⟨24, 0, 5⟩ []
        [⟨false, none, false, true, none⟩,
         ⟨false, none, false, true, some ⟨"u", "u", 0, "5 hours", "", []⟩⟩]).events
      = [Ev.click 0, Ev.click 1, Ev.append 1 ⟨"u", "u", 0, "5 hours", "", []⟩, Ev.close]
    ∧ closedProperly
        (openedIdx [⟨false, none, false, true, none⟩,
          ⟨false, none, false, true, some ⟨"u", "u", 0, "5 hours", "", []⟩⟩])
        (extract_recent_posts ⟨24, 0, 5⟩ []
          [⟨false, none, false, true, none⟩,
           ⟨false, none, false, true, some ⟨"u", "u", 0, "5 hours", "", []⟩⟩]).events
      = false := by decide

lemma closedProperly_close (f : Nat → Bool) (t : List Ev) :
    closedProperly f (Ev.close :: t) = closedProperly f t := rfl

lemma closedProperly_append (f : Nat → Bool) (j : Nat) (pd : PostData) (t : List Ev) :
    closedProperly f (Ev.append j pd :: t) = closedProperly f t := rfl

lemma closedProperly_click_close (f : Nat → Bool) (i : Nat) (t : List Ev) :
    closedProperly f (Ev.click i :: Ev.close :: t) = closedProperly f t := by
  simp [closedProperly, closeBeforeNextClick]

lemma closedProperly_click_append_close (f : Nat → Bool) (i j : Nat)
    (pd : PostData) (t : List Ev) :
    closedProperly f (Ev.click i :: Ev.append j pd :: Ev.close :: t)
      = closedProperly f t := by
  simp [closedProperly, closeBeforeNextClick]

lemma closedProperly_click_unneeded (f : Nat → Bool) (i : Nat) (t : List Ev)
    (hf : f i = false) :
    closedProperly f (Ev.click i :: t) = closedProperly f t := by
  simp [closedProperly, hf]

/-- Generalized invariant: any iteration the scan runs either closes within
the iteration or is exempted by `f` (which must agree, on the indices the
suffix uses, with `needsCloseOf`). -/
lemma scanGo_closedProperly (cfg : ScanConfig) (pinned : List String) (f : Nat → Bool) :
    ∀ (l : List Candidate) (i proc : Nat),
    (∀ k c, l.get? k = some c → f (i + k) = needsCloseOf c) →
    closedProperly f (scanGo cfg pinned i l proc).events = true := by
  intro l
  induction l with
  | nil => intro i proc _; simp [scanGo, closedProperly]
  | cons c rest ih =>
    intro i proc hf
    have hfc : f i = needsCloseOf c := by
      have := hf 0 c (by simp)
      simpa using this
    have hfr : ∀ k c', rest.get? k = some c' → f ((i + 1) + k) = needsCloseOf c' := by
      intro k c' hk
      have := hf (k + 1) c' (by simpa using hk)
      rw [show i + (k + 1) = (i + 1) + k by omega] at this
      exact this
    simp only [scanGo]
    split
    · simp [closedProperly]
    split
    · exact ih (i + 1) proc hfr
    split
    · exact ih (i + 1) proc hfr
    split
    next hraise =>
      rw [closedProperly_click_close]
      exact ih (i + 1) proc hfr
    next hraise =>
    split
    next hext =>
      have : f i = false := by
        rw [hfc]; simp [needsCloseOf, hext, by simpa using hraise]
      rw [closedProperly_click_unneeded f i _ this]
      exact ih (i + 1) proc hfr
    next pd hext =>
      split
      · split
        · split
          · rw [closedProperly_click_append_close]; rfl
          · rw [closedProperly_click_close]; rfl
        · rw [closedProperly_click_close]; rfl
      · split
        · rw [closedProperly_click_append_close]
          exact ih (i + 1) _ hfr
        · rw [closedProperly_click_close]
          exact ih (i + 1) _ hfr

/-- C3 (amended): the detail view is closed before the loop moves on in
every iteration whose click raised (the exception path closes) or whose
extraction succeeded (the normal, skip, and early-stop paths close) — but
the extraction-failure (`NotFound`) path, exempted here by `needsCloseIdx`,
proceeds to the next candidate without closing, as the counterexample
shows. -/
theorem c3_closes_except_extract_failure (cfg : ScanConfig)
    (pinned : List String) (cands : List Candidate) :
    closedProperly (needsCloseIdx cands)
      (extract_recent_posts cfg pinned cands).events = true := by
  refine scanGo_closedProperly cfg pinned (needsCloseIdx cands) cands 0 0 ?_
  intro k c hk
  simp only [needsCloseIdx, Nat.zero_add, hk]

/-! ## C2: early stop and the contiguous-prefix shape of the result -/

/-- The extraction datum of a candidate the loop fully processes: `none` for
the stray-string, pinned-matched, click-raising and extraction-failure
skips. -/
def goodData (pinned : List String) (c : Candidate) : Option PostData :=
  if c.isStr then none
  else if is_pinned_post c.href pinned then none
  else if c.clickRaises then none
  else extractOutcome c

/-- All in-window posts of the feed's processable candidates, in feed
order (the reference list the scan result is a prefix of). -/
def inWindowPosts (cfg : ScanConfig) (pinned : List String)
    (cands : List Candidate) : List PostData :=
  (cands.filterMap (goodData pinned)).filter
    (fun pd => is_within_hours cfg.now pd.timestamp cfg.hoursThreshold
      (some pd.timestamp_text))

/-- The empty list is a prefix of every list. -/
lemma nilPref {α : Type} (l : List α) : [] <+: l := ⟨l, rfl⟩

/-- The scan's post list is a contiguous head of the in-window posts of the
candidate list: every path either appends the next in-window post, skips a
candidate that contributes nothing to the reference list, or stops. -/
lemma scanGo_posts_isPref (cfg : ScanConfig) (pinned : List String) :
    ∀ (l : List Candidate) (i proc : Nat),
    (scanGo cfg pinned i l proc).posts <+:
      (l.filterMap (goodData pinned)).filter
        (fun pd => is_within_hours cfg.now pd.timestamp cfg.hoursThreshold
          (some pd.timestamp_text)) := by
  intro l
  induction l with
  | nil => intro i proc; simp [scanGo]
  | cons c rest ih =>
    intro i proc
    simp only [scanGo]
    split
    · exact nilPref _
    split
    next hstr => simpa [List.filterMap_cons, goodData, hstr] using ih (i + 1) proc
    split
    next hstr hpin =>
      simpa [List.filterMap_cons, goodData, hstr, hpin] using ih (i + 1) proc
    split
    next hstr hpin hraise =>
      simpa [List.filterMap_cons, goodData, hstr, hpin, hraise] using ih (i + 1) proc
    next hstr hpin hraise =>
    have hstr' : c.isStr = false := by simpa using hstr
    have hpin' : is_pinned_post c.href pinned = false := by simpa using hpin
    have hraise' : c.clickRaises = false := by simpa using hraise
    split
    next hext =>
      simpa [List.filterMap_cons, goodData, hstr', hpin', hraise', hext]
        using ih (i + 1) proc
    next pd hext =>
      have hmap : (c :: rest).filterMap (goodData pinned)
          = pd :: rest.filterMap (goodData pinned) := by
        simp [List.filterMap_cons, goodData, hstr', hpin', hraise', hext]
      split
      · split
        · split
          next hwin =>
            refine ⟨List.filter (fun pd => is_within_hours cfg.now pd.timestamp
              cfg.hoursThreshold (some pd.timestamp_text))
              (rest.filterMap (goodData pinned)), ?_⟩
            dsimp only
            rw [hmap]
            simp [List.filter_cons, hwin]
          · exact nilPref _
        · exact nilPref _
      · split
        next hwin =>
          obtain ⟨t, ht⟩ := ih (i + 1) (proc + 1)
          refine ⟨t, ?_⟩
          dsimp only
          rw [hmap]
          simp only [List.filter_cons, hwin, if_true, List.cons_append, ht]
        next hwin =>
          have hwin' : is_within_hours cfg.now pd.timestamp cfg.hoursThreshold
              (some pd.timestamp_text) = false := by simpa using hwin
          dsimp only
          rw [hmap]
          simp only [List.filter_cons, hwin', Bool.false_eq_true, if_false]
          exact ih (i + 1) (proc + 1)

/-- C2: on a feed of non-pinned candidates A(recent), B(recent), C(old,
not "yesterday"), D, the scan returns exactly [A, B]; C stops the scan with
a processed count of 3, D is never clicked; and in general the returned
list is a contiguous prefix of the in-window posts of the feed's
processable candidates in feed order. -/
theorem c2_early_stop_scan (thr nowv : Int) (pdA pdB pdC : PostData) (cD : Candidate)
    (hAold : oldIndicators.any
      (fun ind => strContains (pyLower pdA.timestamp_text) ind) = false)
    (hArec : recentIndicators.any
      (fun ind => strContains (pyLower pdA.timestamp_text) ind) = true)
    (hBold : oldIndicators.any
      (fun ind => strContains (pyLower pdB.timestamp_text) ind) = false)
    (hBrec : recentIndicators.any
      (fun ind => strContains (pyLower pdB.timestamp_text) ind) = true)
    (hCold : oldIndicators.any
      (fun ind => strContains (pyLower pdC.timestamp_text) ind) = true)
    (hCyest : (strContains pdC.timestamp_text "昨天"
      || strContains pdC.timestamp_text "yesterday") = false) :
    (extract_recent_posts ⟨thr, nowv, 5⟩ []
        [⟨false, none, false, true, some pdA⟩, ⟨false, none, false, true, some pdB⟩,
         ⟨false, none, false, true, some pdC⟩, cD]).posts = [pdA, pdB]
    ∧ (extract_recent_posts ⟨thr, nowv, 5⟩ []
        [⟨false, none, false, true, some pdA⟩, ⟨false, none, false, true, some pdB⟩,
         ⟨false, none, false, true, some pdC⟩, cD]).processed = 3
    ∧ Ev.click 3 ∉ (extract_recent_posts ⟨thr, nowv, 5⟩ []
        [⟨false, none, false, true, some pdA⟩, ⟨false, none, false, true, some pdB⟩,
         ⟨false, none, false, true, some pdC⟩, cD]).events
    ∧ ∀ (cfg' : ScanConfig) (pinned' : List String) (cands' : List Candidate),
        (extract_recent_posts cfg' pinned' cands').posts
          <+: inWindowPosts cfg' pinned' cands' := by
  have hrun : extract_recent_posts ⟨thr, nowv, 5⟩ []
      [⟨false, none, false, true, some pdA⟩, ⟨false, none, false, true, some pdB⟩,
       ⟨false, none, false, true, some pdC⟩, cD]
      = ⟨[pdA, pdB], 3,
         [Ev.click 0, Ev.append 0 pdA, Ev.close, Ev.click 1, Ev.append 1 pdB,
          Ev.close, Ev.click 2, Ev.close]⟩ := by
    unfold extract_recent_posts
    simp [scanGo, extractOutcome, is_pinned_post, hAold, hBold, hCold, hCyest,
      within_hours_of_recentAny nowv pdA.timestamp thr hArec,
      within_hours_of_recentAny nowv pdB.timestamp thr hBrec]
  refine ⟨by rw [hrun], by rw [hrun], by rw [hrun]; simp, ?_⟩
  intro cfg' pinned' cands'
  exact scanGo_posts_isPref cfg' pinned' cands' 0 0

/-- Witness for `c2_early_stop_scan` on concrete posts: A "5 hours",
B "30 minutes", C "2 days", D "1 hour". -/
theorem c2_early_stop_scan_witness :
    (extract_recent_posts ⟨24, 0, 5⟩ []
        [⟨false, none, false, true, some ⟨"u", "u", 0, "5 hours", "", []⟩⟩,
         ⟨false, none, false, true, some ⟨"u", "u", 0, "30 minutes", "", []⟩⟩,
         ⟨false, none, false, true, some ⟨"u", "u", 0, "2 days", "", []⟩⟩,
         ⟨false, none, false, true, some ⟨"u", "u", 0, "1 hour", "", []⟩⟩]).posts
      = [⟨"u", "u", 0, "5 hours", "", []⟩, ⟨"u", "u", 0, "30 minutes", "", []⟩]
    ∧ (extract_recent_posts ⟨24, 0, 5⟩ []
        [⟨false, none, false, true, some ⟨"u", "u", 0, "5 hours", "", []⟩⟩,
         ⟨false, none, false, true, some ⟨"u", "u", 0, "30 minutes", "", []⟩⟩,
         ⟨false, none, false, true, some ⟨"u", "u", 0, "2 days", "", []⟩⟩,
         ⟨false, none, false, true, some ⟨"u", "u", 0, "1 hour", "", []⟩⟩]).processed = 3
    ∧ Ev.click 3 ∉ (extract_recent_posts ⟨24, 0, 5⟩ []
        [⟨false, none, false, true, some ⟨"u", "u", 0, "5 hours", "", []⟩⟩,
         ⟨false, none, false, true, some ⟨"u", "u", 0, "30 minutes", "", []⟩⟩,
         ⟨false, none, false, true, some ⟨"u", "u", 0, "2 days", "", []⟩⟩,
         ⟨false, none, false, true, some ⟨"u", "u", 0, "1 hour", "", []⟩⟩]).events := by
  have h := c2_early_stop_scan 24 0 ⟨"u", "u", 0, "5 hours", "", []⟩
    ⟨"u", "u", 0, "30 minutes", "", []⟩ ⟨"u", "u", 0, "2 days", "", []⟩
    ⟨false, none, false, true, some ⟨"u", "u", 0, "1 hour", "", []⟩⟩
    (by decide) (by decide) (by decide) (by decide) (by decide) (by decide)
  exact ⟨h.1, h.2.1, h.2.2.1⟩

/-! ## `_identify_pinned_posts` (src/lib/post_extractor.py, lines 201-440)

The classifier reads the configured strategy list
(`POST_EXTRACTION_STRATEGY["pinned_post_detection_priority"]`) and runs up
to four strategies over the rendered page.  The page is supplied as an
environment:

* the container→row→item structure that strategy 1's in-page script walks
  (`containerRows = none` models an absent `post_list_container`, the case
  where the script returns an empty array);
* the pinned-icon elements found by the icon selectors (`pinned_icon_elements`,
  lines 229-238), each with its bounding rectangle (or a raised evaluation),
  a flag for whether the primary selector matched it (strategy 3's script
  re-queries `document.querySelectorAll('sel1', 'sel2', ...)`, whose extra
  arguments JavaScript ignores, so only the primary selector's matches are
  seen there), and the href of its nearest anchor ancestor within 10 steps;
* the post elements (`all_post_elements`) with their hrefs and rectangles.

Bounding-box geometry is exact rational arithmetic; the source compares
`sqrt(dx²+dy²)` values, which is modelled by comparing the squares (square
root is strictly monotone; the floats are modelled as exact).  The
`all_post_hrefs` list collected at lines 216-224 is only logged and feeds no
strategy, so it is not modelled. -/

structure Rect where
  top : ℚ
  left : ℚ
  bottom : ℚ
  right : ℚ
deriving DecidableEq

structure IconEl where
  /-- matched by the primary `pinned_post_icon` selector. -/
  primary : Bool
  /-- the `getBoundingClientRect` evaluation raises (per-icon `except`). -/
  rectRaises : Bool
  rect : Rect
  /-- strategy 3's ancestor walk: the href of the nearest enclosing `A` tag
  within 10 steps, if any. -/
  domWalkHref : Option String
deriving DecidableEq

structure CandEl where
  /-- the `href` attribute (`none` when absent). -/
  href : Option String
  /-- the href evaluation raises. -/
  hrefRaises : Bool
  rect : Rect
  /-- the `getBoundingClientRect` evaluation raises. -/
  rectRaises : Bool
deriving DecidableEq

/-- One item of strategy 1's container→row→item walk. -/
structure PostItem where
  /-- some icon container inside the item holds the pinned-marker node. -/
  hasPinnedIconContainer : Bool
  /-- the first `a[href^="/p/"], a[href^="/reel/"]` anchor's href. -/
  link : Option String
deriving DecidableEq

structure ClassifierEnv where
  /-- the rows of `post_list_container`, `none` when the container is absent. -/
  containerRows : Option (List (List PostItem))
  /-- the `page.evaluate` of strategy 1's script raises (`return []`). -/
  iconMatchingRaises : Bool
  /-- `pinned_icon_elements`, in the order the selectors found them. -/
  icons : List IconEl
  /-- `all_post_elements`, in DOM order. -/
  cands : List CandEl
  /-- the `page.evaluate` of strategy 3's script raises. -/
  domTraversalRaises : Bool
deriving DecidableEq

/-- Strategy 1's in-page script (lines 252-299): walk container→rows→items,
collect the deduplicated hrefs of items whose icon container holds the
pinned marker (`[]` when the container is absent). -/
def iconMatchingJs (env : ClassifierEnv) : List String :=
  match env.containerRows with
  | none => []
  | some rows =>
    rows.foldl (fun acc row =>
      row.foldl (fun acc post =>
        if post.hasPinnedIconContainer then
          match post.link with
          | some h => if h ≠ "" ∧ h ∉ acc then acc ++ [h] else acc
          | none => acc
        else acc) acc) []

def rectCenterX (r : Rect) : ℚ := (r.left + r.right) / 2
def rectCenterY (r : Rect) : ℚ := (r.top + r.bottom) / 2

/-- The square of the center-to-center distance of lines 354-361 (comparing
squares is equivalent to comparing the square roots the source computes). -/
def sqDist (a b : Rect) : ℚ :=
  (rectCenterX a - rectCenterX b) * (rectCenterX a - rectCenterX b)
  + (rectCenterY a - rectCenterY b) * (rectCenterY a - rectCenterY b)

/-- Lines 337-365: the index of the candidate nearest to the icon (strict
`<` keeps the earliest on ties; `none` when there are no candidates). -/
def nearestCandIndex (iconRect : Rect) (cands : List CandEl) : Option Nat :=
  (cands.foldl (fun (acc : Option (Nat × ℚ) × Nat) c =>
    match acc with
    | (best, idx) =>
      let d := sqDist iconRect c.rect
      match best with
      | none => (some (idx, d), idx + 1)
      | some (bi, bd) =>
        (if d < bd then some (idx, d) else some (bi, bd), idx + 1)) (none, 0)).1.map
    Prod.fst

/-- Strategy 2 (lines 320-377): for each icon, find the nearest candidate by
bounding-box distance and collect its href; any per-icon evaluation error
(icon rectangle, any candidate rectangle, the nearest candidate's href)
aborts that icon's contribution. -/
def spatialStrategy (env : ClassifierEnv) (acc0 : List String) : List String :=
  env.icons.foldl (fun acc icon =>
    if icon.rectRaises then acc
    else if env.cands.any (fun c => c.rectRaises) then acc
    else
      match nearestCandIndex icon.rect env.cands with
      | none => acc
      | some j =>
        match env.cands.get? j with
        | none => acc
        | some cand =>
          if cand.hrefRaises then acc
          else
            match cand.href with
            | some h => if h ≠ "" ∧ h ∉ acc then acc ++ [h] else acc
            | none => acc) acc0

/-- Strategy 3's in-page script (lines 385-409): for each icon the primary
selector finds, push the ancestor-anchor href when it mentions `/p/` or
`/reel/`. -/
def domTraversalJs (icons : List IconEl) : List String :=
  (icons.filter (fun i => i.primary)).foldl (fun acc icon =>
    match icon.domWalkHref with
    | some h =>
      if h ≠ "" ∧ (strContains h "/p/" || strContains h "/reel/") then acc ++ [h]
      else acc
    | none => acc) []

/-- Strategy 3's host side (lines 411-418): merge the script's hrefs,
skipping ones already collected. -/
def domStage (env : ClassifierEnv) (acc : List String) : List String :=
  if env.domTraversalRaises then acc
  else (domTraversalJs env.icons).foldl
    (fun a h => if h ∉ a then a ++ [h] else a) acc

/-- Strategy 4 (lines 421-433): append the first candidate's href if it
resolves truthy; an evaluation error contributes nothing. -/
def fallbackStage (env : ClassifierEnv) (acc : List String) : List String :=
  match env.cands.head? with
  | none => acc
  | some c =>
    if c.hrefRaises then acc
    else
      match c.href with
      | some h => if h ≠ "" then acc ++ [h] else acc
      | none => acc

/-- `POST_EXTRACTION_STRATEGY["pinned_post_detection_priority"]`. -/
def defaultStrategies : List String :=
  ["icon_matching", "spatial_proximity", "dom_traversal", "first_post_fallback"]

/-- The identifier set before the first-post fallback: strategy 1 — whose
branch `return`s unconditionally (line 311, or line 317 on exception) —
when configured, else strategies 2 and 3 under their `not pinned_posts`
guards over the initially empty list. -/
def pinnedBeforeFallback (strategies : List String) (env : ClassifierEnv) :
    List String :=
  if "icon_matching" ∈ strategies then
    (if env.iconMatchingRaises then [] else iconMatchingJs env)
  else
    let p1 : List String := []
    let p2 := if "spatial_proximity" ∈ strategies ∧ p1 = [] ∧ env.icons ≠ []
      then spatialStrategy env p1 else p1
    let p3 := if "dom_traversal" ∈ strategies ∧ p2 = [] ∧ env.icons ≠ []
      then domStage env p2 else p2
    p3

/-- `_identify_pinned_posts`: when `icon_matching` is configured its result
is returned at line 311 (or `[]` at 317), reaching no later strategy;
otherwise the remaining strategies accumulate under their guards, the
first-post fallback last (guarded by `not pinned_posts` and a non-empty
candidate list, line 421). -/
def identify_pinned_posts (strategies : List String) (env : ClassifierEnv) :
    List String :=
  if "icon_matching" ∈ strategies then pinnedBeforeFallback strategies env
  else if "first_post_fallback" ∈ strategies
      ∧ pinnedBeforeFallback strategies env = [] ∧ 0 < env.cands.length
    then fallbackStage env (pinnedBeforeFallback strategies env)
  else pinnedBeforeFallback strategies env

/-- A feed state for C1: the container/row/item structural path is absent
(strategy 1's script finds no container), while a pinned-marker icon found
by the primary selector sits inside an anchor with href "/p/PIN1/" that the
DOM-traversal strategy would collect, and a candidate exists. -/
def envC1 : ClassifierEnv :=
  ⟨none, false,
   [⟨true, true, ⟨0, 0, 0, 0⟩, some "/p/PIN1/"⟩],
   [⟨some "/p/CAND1/", false, ⟨0, 0, 0, 0⟩, false⟩],
   false⟩

/-- C1: with the configured strategy list, when the icon-matching strategy's
container/row/item structural path is absent the classifier returns its
empty result immediately (the unconditional `return pinned_posts` at line
311) — it does not proceed to the spatial-proximity, DOM-traversal and
first-post-fallback strategies, even though on the same feed state these
strategies (run by removing `icon_matching` from the configuration) produce
the pinned identifier "/p/PIN1/". -/
theorem c1_chain_terminates_at_icon_matching :
    identify_pinned_posts defaultStrategies envC1 = []
    ∧ identify_pinned_posts
        ["spatial_proximity", "dom_traversal", "first_post_fallback"] envC1
      = ["/p/PIN1/"]
    ∧ envC1.containerRows = none
    ∧ envC1.icons ≠ [] := by
  refine ⟨rfl, rfl, rfl, by decide⟩

/-- A feed state for C10: a pinned-marker icon is found by the selectors but
its bounding-rectangle evaluation raises (so spatial proximity collects
nothing) and it has no anchor ancestor (so DOM traversal collects nothing);
one candidate with href "/p/FIRST1/" exists. -/
def envC10 : ClassifierEnv :=
  ⟨none, false,
   [⟨true, true, ⟨0, 0, 0, 0⟩, none⟩],
   [⟨some "/p/FIRST1/", false, ⟨0, 0, 0, 0⟩, false⟩],
   false⟩

/-- C10 (counterexample): marker nodes were found by a selector
(`envC10.icons ≠ []`), yet the first-post fallback still classifies the
first candidate as pinned, because the preceding strategies produced no
identifier — contradicting "only used when no marker nodes were found by
any selector anywhere on the page".  (The fallback is reachable at all only
without `icon_matching` in the configured list, since that branch returns
unconditionally.) -/
theorem c10_fallback_despite_markers :
    identify_pinned_posts
        ["spatial_proximity", "dom_traversal", "first_post_fallback"] envC10
      = ["/p/FIRST1/"]
    ∧ envC10.icons ≠ [] := by
  refine ⟨rfl, by decide⟩

/-- C10 (amended): the first-post fallback is applied only when the
preceding enabled strategies produced an empty identifier set and at least
one candidate exists; whenever the preceding strategies produced a
non-empty identifier set, the classifier returns exactly that set and the
fallback never adds the first candidate. -/
theorem c10_fallback_only_when_chain_empty (strategies : List String)
    (env : ClassifierEnv) :
    (pinnedBeforeFallback strategies env ≠ [] →
      identify_pinned_posts strategies env = pinnedBeforeFallback strategies env)
    ∧ (identify_pinned_posts strategies env ≠ pinnedBeforeFallback strategies env →
      pinnedBeforeFallback strategies env = [] ∧ env.cands ≠ []) := by
  unfold identify_pinned_posts
  by_cases hic : "icon_matching" ∈ strategies
  · rw [if_pos hic]
    exact ⟨fun _ => rfl, fun h => absurd rfl h⟩
  · rw [if_neg hic]
    by_cases hg : "first_post_fallback" ∈ strategies
        ∧ pinnedBeforeFallback strategies env = [] ∧ 0 < env.cands.length
    · rw [if_pos hg]
      refine ⟨fun hne => absurd hg.2.1 hne, fun _ => ⟨hg.2.1, ?_⟩⟩
      intro hnil
      rw [hnil] at hg
      exact absurd hg.2.2 (by simp)
    · rw [if_neg hg]
      exact ⟨fun _ => rfl, fun h => absurd rfl h⟩

/-- A feed state whose icon-matching structural walk does find a pinned
item, for the witness below. -/
def envC10w : ClassifierEnv :=
  ⟨some [[⟨true, some "/p/W1/"⟩]], false, [], [], false⟩

/-- Witness for `c10_fallback_only_when_chain_empty`: with a non-empty
icon-matching result the classifier returns exactly the pre-fallback set. -/
theorem c10_fallback_only_when_chain_empty_witness :
    identify_pinned_posts defaultStrategies envC10w
      = pinnedBeforeFallback defaultStrategies envC10w :=
  (c10_fallback_only_when_chain_empty defaultStrategies envC10w).1 (by decide)

/-! ## `_extract_image_urls` (src/lib/post_extractor.py, lines 751-872)

The detail view is supplied as an environment indexed by the number of
"next" clicks performed: `img t` is the image element the selector chain
resolves after `t` clicks (with its `srcset` and `src` attributes), `next t`
whether a "next image" control is then present, `clickRaises t` whether
clicking it raises (the function-level `except` then returns the URLs
collected so far).  Python's falsy `None`/`""` attribute values are both
modelled by the per-step guards on the empty string. -/

/-- Python's `s.split(sep)` for a single-character separator. -/
def splitOnChar (sep : Char) : List Char → List (List Char)
  | [] => [[]]
  | c :: rest =>
    if c = sep then [] :: splitOnChar sep rest
    else
      match splitOnChar sep rest with
      | h :: t => (c :: h) :: t
      | [] => [[c]]

/-- `srcset.split(',')[-1].strip().split(' ')[0]`: the highest-resolution
URL of a `srcset` attribute (lines 785-788 and 853-856). -/
def srcsetLast (ss : String) : String :=
  ⟨(stripChars ((splitOnChar ',' ss.data).getLastD [])).takeWhile
    (fun c => c ≠ ' ')⟩

example : srcsetLast "a.jpg 1x, b.jpg 2x" = "b.jpg" := by decide

structure ImgEl where
  srcset : Option String
  src : Option String
deriving DecidableEq

structure CarouselEnv where
  /-- the image element resolved by the selector chain after `t` clicks. -/
  img : Nat → Option ImgEl
  /-- a "next image" control is present after `t` clicks. -/
  next : Nat → Bool
  /-- clicking the control after `t` clicks raises. -/
  clickRaises : Nat → Bool

/-- The srcset part of lines 780-791: the singleton of the srcset's last
entry when the attribute and the extracted URL are truthy. -/
def firstSrcsetUrls (e : ImgEl) : List String :=
  match e.srcset with
  | some ss =>
    if ss ≠ "" then (if srcsetLast ss ≠ "" then [srcsetLast ss] else []) else []
  | none => []

/-- Lines 780-798: the initial image's URL list — the srcset's last entry if
truthy, else (`if not image_urls`) the `src` attribute if truthy. -/
def firstImageUrls (e : ImgEl) : List String :=
  if firstSrcsetUrls e = [] then
    match e.src with
    | some u => if u ≠ "" then [u] else []
    | none => []
  else firstSrcsetUrls e

/-- Lines 850-860: the per-step URL (`new_url`), srcset-preferred with `src`
fallback; `none` models Python-falsy (`None` or `""`). -/
def loopNewUrl (e : ImgEl) : Option String :=
  match e.srcset with
  | some ss =>
    if ss ≠ "" ∧ srcsetLast ss ≠ "" then some (srcsetLast ss)
    else
      match e.src with
      | some u => if u ≠ "" then some u else none
      | none => none
  | none =>
    match e.src with
    | some u => if u ≠ "" then some u else none
    | none => none

/-- Lines 822-865: the `for i in range(max_images - 1)` loop.  `clicks`
counts the next-clicks performed so far; `fuel` is the remaining iteration
budget (9 at entry, since the first image is already collected). -/
def carouselLoop (env : CarouselEnv) : Nat → Nat → List String → List String
  | _, 0, image_urls => image_urls
  | clicks, fuel + 1, image_urls =>
    if env.next clicks = false then image_urls
    else if env.clickRaises clicks then image_urls
    else
      match env.img (clicks + 1) with
      | none => carouselLoop env (clicks + 1) fuel image_urls
      | some e =>
        match loopNewUrl e with
        | some u =>
          if u ∉ image_urls then carouselLoop env (clicks + 1) fuel (image_urls ++ [u])
          else carouselLoop env (clicks + 1) fuel image_urls
        | none => carouselLoop env (clicks + 1) fuel image_urls

/-- Lines 758-798: the URLs collected before the carousel check (empty when
no image element resolves). -/
def initialImageUrls (env : CarouselEnv) : List String :=
  match env.img 0 with
  | some e => firstImageUrls e
  | none => []

/-- `_extract_image_urls`: collect the first image, then traverse the
carousel while a "next" control exists, up to `max_images = 10`. -/
def extract_image_urls (env : CarouselEnv) : List String :=
  if env.next 0 then carouselLoop env 0 9 (initialImageUrls env)
  else initialImageUrls env

/-- A wrap-around carousel: three distinct images, "next" always present, so
the loop keeps re-visiting already-collected URLs until the budget runs
out; the result holds each URL once. -/
example : extract_image_urls
    ⟨fun t => some ⟨none, some (if t % 3 = 0 then "a" else if t % 3 = 1 then "b" else "c")⟩,
     fun _ => true, fun _ => false⟩ = ["a", "b", "c"] := by decide

lemma nodupAppendOne {α : Type} {l : List α} {a : α} (h : l.Nodup) (ha : a ∉ l) :
    (l ++ [a]).Nodup := by
  induction l with
  | nil => simp
  | cons b t ih =>
    rcases List.nodup_cons.mp h with ⟨hb, ht⟩
    have ha2 : a ∉ t := fun hm => ha (List.mem_cons_of_mem _ hm)
    have hba : b ≠ a := fun hba => ha (by rw [← hba]; exact List.mem_cons_self _ _)
    refine List.nodup_cons.mpr ⟨?_, ih ht ha2⟩
    intro hmem
    rcases List.mem_append.mp hmem with hm | hm
    · exact hb hm
    · simp only [List.mem_singleton] at hm
      exact hba hm

lemma carouselLoop_length (env : CarouselEnv) :
    ∀ (fuel clicks : Nat) (urls : List String),
    (carouselLoop env clicks fuel urls).length ≤ urls.length + fuel := by
  intro fuel
  induction fuel with
  | zero => intro clicks urls; simp [carouselLoop]
  | succ n ih =>
    intro clicks urls
    simp only [carouselLoop]
    split
    · omega
    split
    · omega
    split
    · exact le_trans (ih (clicks + 1) urls) (by omega)
    split
    next u hequ =>
      split
      next hnm =>
        have hrec := ih (clicks + 1) (urls ++ [u])
        simp only [List.length_append, List.length_singleton] at hrec
        exact le_trans hrec (by omega)
      next hnm => exact le_trans (ih (clicks + 1) urls) (by omega)
    next hequ => exact le_trans (ih (clicks + 1) urls) (by omega)

lemma carouselLoop_nodup (env : CarouselEnv) :
    ∀ (fuel clicks : Nat) (urls : List String),
    urls.Nodup → (carouselLoop env clicks fuel urls).Nodup := by
  intro fuel
  induction fuel with
  | zero => intro clicks urls h; simpa [carouselLoop] using h
  | succ n ih =>
    intro clicks urls h
    simp only [carouselLoop]
    split
    · exact h
    split
    · exact h
    split
    · exact ih (clicks + 1) urls h
    split
    next u hequ =>
      split
      next hnm => exact ih (clicks + 1) _ (nodupAppendOne h hnm)
      next hnm => exact ih (clicks + 1) urls h
    next hequ => exact ih (clicks + 1) urls h

lemma firstImageUrls_short (e : ImgEl) :
    (firstImageUrls e).length ≤ 1 ∧ (firstImageUrls e).Nodup := by
  have hs : (firstSrcsetUrls e).length ≤ 1 ∧ (firstSrcsetUrls e).Nodup := by
    unfold firstSrcsetUrls
    cases e.srcset with
    | none => simp
    | some ss =>
      dsimp only
      split
      · split <;> simp
      · simp
  unfold firstImageUrls
  split
  · cases e.src with
    | none => simp
    | some u =>
      dsimp only
      split <;> simp
  · exact hs

lemma initialImageUrls_short (env : CarouselEnv) :
    (initialImageUrls env).length ≤ 1 ∧ (initialImageUrls env).Nodup := by
  unfold initialImageUrls
  cases env.img 0 with
  | none => simp
  | some e => exact firstImageUrls_short e

/-- C9: for every detail view — including a carousel whose "next" control
wraps past the last image back to the first — the image-URL list returned
by `_extract_image_urls` has length at most 10 and contains no duplicate
URL. -/
theorem c9_carousel_bounded_nodup (env : CarouselEnv) :
    (extract_image_urls env).length ≤ 10 ∧ (extract_image_urls env).Nodup := by
  have hinit := initialImageUrls_short env
  unfold extract_image_urls
  split
  · constructor
    · have hlen := carouselLoop_length env 9 0 (initialImageUrls env)
      have h1 := hinit.1
      omega
    · exact carouselLoop_nodup env 9 0 (initialImageUrls env) hinit.2
  · exact ⟨le_trans hinit.1 (by omega), hinit.2⟩

end InstaDL
